import Mathlib

/-!
Verification of the pygubu builder-object layer
(`pygubu/builder/builderobject.py` and `pygubu/builder/ttkstdwidgets.py`).

The Python source is shallowly embedded: property bags (Python `dict` /
`OrderedDict`) become association lists over `String` whose insertion and
iteration order mirror the dictionary semantics, fallible operations
(Python exceptions) become `Except String`, and the external toolkit
(tkinter widgets, Tcl boolean parsing) is modelled by explicit functions
noted at each definition.
-/

namespace Pygubu

/-! ## Generic dictionary model

Python `dict` / `OrderedDict` assignment `d[k] = v`: if the key is
present its value is replaced in place (keeping its position), otherwise
the pair is appended at the end. -/

def lookupD (l : List (String × String)) (k d : String) : String :=
  (l.lookup k).getD d

def odSet {α : Type} (l : List (String × α)) (k : String) (v : α) : List (String × α) :=
  if (l.lookup k).isSome then
    l.map (fun e => if e.1 = k then (k, v) else e)
  else
    l ++ [(k, v)]

/-! ## String helpers

Executable models of the Python string operations the source uses
(`str.lower`, `str.strip`, prefix tests), written over the character list of
a `String` so that concrete instances compute by `rfl`/`decide`.  They model
the ASCII fragment of the Python operations. -/

/-- ASCII lowercasing of one character (model of `str.lower` per character). -/
def lowerChar (c : Char) : Char :=
  if 65 ≤ c.toNat ∧ c.toNat ≤ 90 then Char.ofNat (c.toNat + 32) else c

/-- Model of Python `str.lower` (ASCII fragment). -/
def pyLower (s : String) : String := String.mk (s.data.map lowerChar)

/-- Python whitespace characters stripped by `str.strip()` (ASCII fragment). -/
def isWsChar (c : Char) : Bool :=
  c == ' ' || c == '\t' || c == '\n' || c == '\r' || c == '\x0b' || c == '\x0c'

/-- Model of Python `str.strip()`: drop leading and trailing whitespace. -/
def pyStrip (s : String) : String :=
  String.mk (((s.data.dropWhile isWsChar).reverse.dropWhile isWsChar).reverse)

def listPrefixOf : List Char → List Char → Bool
  | [], _ => true
  | _ :: _, [] => false
  | a :: as, b :: bs => a == b && listPrefixOf as bs

/-- `p` is a prefix of `w`. -/
def strPrefixOf (p w : String) : Bool := listPrefixOf p.data w.data

/-! ## Property registry (`register_property`, builderobject.py lines 65-74)

A registered property description is a JSON-like nested dictionary.
`CUSTOM_PROPERTIES` is modelled as an association list from property name
to description.  Re-registration executes Python `dict.update`, which is
a *shallow*, top-level merge; `dictUpdate` mirrors it key by key. -/

inductive PValue where
  | s (v : String)
  | d (fields : List (String × PValue))

abbrev PDict := List (String × PValue)

/-- Python `d1.update(d2)`: every top-level key of `d2` is assigned into
`d1` in order, replacing the whole stored value for that key. -/
def dictUpdate (d1 d2 : PDict) : PDict :=
  d2.foldl (fun acc e => odSet acc e.1 e.2) d1

/-- `register_property(name, description)`: if `name` is already registered,
`CUSTOM_PROPERTIES[name].update(description)`; otherwise insert it. -/
def register_property (st : List (String × PDict)) (name : String) (description : PDict) :
    List (String × PDict) :=
  if (st.lookup name).isSome then
    st.map (fun e => if e.1 = name then (e.1, dictUpdate e.2 description) else e)
  else
    st ++ [(name, description)]

/-- Registering the same property name twice, starting from an empty registry. -/
def register_twice (p : String) (d1 d2 : PDict) : List (String × PDict) :=
  register_property (register_property [] p d1) p d2

/-- Lookup of a nested field of a description along a path of keys. -/
def getPath : List String → PValue → Option PValue
  | [], v => some v
  | k :: ks, v =>
    match v with
    | .s _ => none
    | .d fields =>
      match fields.lookup k with
      | some w => getPath ks w
      | none => none

/-- First description registered in the C1 scenario: field `x` nested under `a`. -/
def cexD1 : PDict := [("a", PValue.d [("x", PValue.s "1")])]

/-- Second description registered in the C1 scenario: field `y` nested under `a`. -/
def cexD2 : PDict := [("a", PValue.d [("y", PValue.s "2")])]

/-! ## Property processing and configuration
(`BuilderObject._get_init_args`, `configure`, `_process_property_value`,
`_set_property`, builderobject.py lines 178-227) -/

/-- Keyword/value pairs accepted by Tcl boolean parsing, with the value each
denotes.  Unambiguous case-insensitive prefixes are accepted. -/
def tclBoolWords : List (String × Bool) :=
  [("yes", true), ("no", false), ("true", true), ("false", false), ("on", true), ("off", false)]

/-- Model of `tk.getboolean` (external tkinter/Tcl collaborator): lowercases the
input, accepts "0"/"1" and unambiguous prefixes of the Tcl boolean keywords,
and raises TclError (here `Except.error`) otherwise. -/
def pygetboolean (s : String) : Except String Bool :=
  let l := pyLower s
  if l = "0" then .ok false
  else if l = "1" then .ok true
  else if l = "" then .error ("expected boolean value but got " ++ s)
  else
    match tclBoolWords.filter (fun w => strPrefixOf l w.1) with
    | [w] => .ok w.2
    | _ => .error ("expected boolean value but got " ++ s)

/-- Result of `_process_property_value`.  tkinter variable and image objects
are created by external builder collaborators (`builder.create_variable`,
`builder.get_image`); they are modelled as tagged values recording the
arguments passed to those collaborators. -/
inductive PropValue where
  | str (s : String)
  | tkvar (vname : String) (preset : Option String)
  | tkimg (iname : String)
  | tkbool (b : Bool)
deriving DecidableEq

/-- `BuilderObject.tkvar_properties`. -/
def tkvar_properties : List String := ["listvariable", "textvariable", "variable"]

/-- `BuilderObject.tkimage_properties`. -/
def tkimage_properties : List String := ["image", "selectimage", "iconphoto"]

/-- `BuilderObject._process_property_value(pname, value)`: variable properties
become tk variables (preset from the "text"/"value" metadata properties),
image properties become images, a non-empty "takefocus" value goes through
`tk.getboolean` (which can raise), everything else stays a plain string. -/
def process_property_value (wprops : List (String × String)) (pname value : String) :
    Except String PropValue :=
  if pname ∈ tkvar_properties then
    .ok (.tkvar value
      (if (wprops.lookup "text").isSome ∧ pname = "textvariable" then wprops.lookup "text"
       else if (wprops.lookup "value").isSome ∧ pname = "variable" then wprops.lookup "value"
       else none))
  else if pname ∈ tkimage_properties then .ok (.tkimg value)
  else if pname = "takefocus" then
    if value = "" then .ok (.str value)
    else
      match pygetboolean value with
      | .ok b => .ok (.tkbool b)
      | .error e => .error e
  else .ok (.str value)

/-- One log record emitted by `_set_property` (logger calls are modelled as
returned log entries). -/
inductive LogEntry where
  | unknownProp (pname : String)
  | setOk (pname : String) (v : PropValue)
  | setFailed (pname : String) (err : String)
deriving DecidableEq

/-- `BuilderObject._set_property(target, pname, value)`.  The underlying
toolkit widget is modelled as `widget : String → PropValue → Except String Unit`
(the assignment `target_widget[pname] = propvalue`, which may raise TclError).
Only that assignment is wrapped in try/except; `_process_property_value` runs
before the try block, so its errors propagate. -/
def set_property (props : List String) (wprops : List (String × String))
    (widget : String → PropValue → Except String Unit) (pname value : String) :
    Except String LogEntry :=
  if pname ∈ props then
    match process_property_value wprops pname value with
    | .ok pv =>
      match widget pname pv with
      | .ok _ => .ok (.setOk pname pv)
      | .error e => .ok (.setFailed pname e)
    | .error e => .error e
  else .ok (.unknownProp pname)

/-- `BuilderObject._get_init_args`: the construction arguments `realize` passes
to the widget class — the read-only properties present in the metadata bag,
in declaration order, with their processed values. -/
def get_init_args (wprops : List (String × String)) :
    List String → Except String (List (String × PropValue))
  | [] => .ok []
  | rop :: rest =>
    match wprops.lookup rop with
    | some v =>
      match process_property_value wprops rop v with
      | .ok pv =>
        match get_init_args wprops rest with
        | .ok args => .ok ((rop, pv) :: args)
        | .error e => .error e
      | .error e => .error e
    | none => get_init_args wprops rest

/-- The `(pname, value)` pairs `BuilderObject.configure` passes to
`_set_property`: every metadata property that is neither read-only nor
command-valued, in bag order. -/
def configure_targets (ro cmdp : List String) (wprops : List (String × String)) :
    List (String × String) :=
  wprops.filter (fun pv => decide (pv.1 ∉ ro ∧ pv.1 ∉ cmdp))

/-- The loop body of `BuilderObject.configure` over its target properties. -/
def configure_go (props : List String) (wprops : List (String × String))
    (widget : String → PropValue → Except String Unit) :
    List (String × String) → Except String (List LogEntry)
  | [] => .ok []
  | t :: ts =>
    match set_property props wprops widget t.1 t.2 with
    | .ok log =>
      match configure_go props wprops widget ts with
      | .ok logs => .ok (log :: logs)
      | .error e => .error e
    | .error e => .error e

/-- `BuilderObject.configure(target)`. -/
def configure (props ro cmdp : List String) (wprops : List (String × String))
    (widget : String → PropValue → Except String Unit) : Except String (List LogEntry) :=
  configure_go props wprops widget (configure_targets ro cmdp wprops)

/-- A toolkit widget that accepts every property assignment. -/
def acceptingWidget : String → PropValue → Except String Unit := fun _ _ => .ok ()

/-- A toolkit widget that rejects every property assignment with a TclError. -/
def rejectingWidget : String → PropValue → Except String Unit := fun _ _ => .error "bad value"

/-! ## Entry-like widgets (`EntryBaseBO._set_property`, builderobject.py
lines 678-688) -/

/-- Model of a tkinter entry-like widget (external collaborator): `state` and
text `content`.  Mirroring the toolkit, programmatic `delete`/`insert` are
ignored unless the widget state is "normal" (which is why the source
temporarily unlocks a disabled widget), while the state option itself can
always be assigned. -/
structure EntryWidget where
  state : String
  content : String
deriving DecidableEq

/-- `target_widget.delete("0", tk.END)`. -/
def entry_delete_all (w : EntryWidget) : EntryWidget :=
  if w.state = "normal" then { w with content := "" } else w

/-- `target_widget.insert("0", value)`. -/
def entry_insert_start (w : EntryWidget) (value : String) : EntryWidget :=
  if w.state = "normal" then { w with content := value ++ w.content } else w

/-- `target_widget["state"] = s`. -/
def entry_set_state (w : EntryWidget) (s : String) : EntryWidget := { w with state := s }

/-- The `pname == "text"` branch of `EntryBaseBO._set_property`: remember the
current state, unlock if not "normal", clear, insert the new value, restore
the remembered state.  (The other branch delegates to
`BuilderObject._set_property`, modelled separately.) -/
def entry_set_text (w : EntryWidget) (value : String) : EntryWidget :=
  let wstate := w.state
  let w1 := if wstate ≠ "normal" then entry_set_state w "normal" else w
  let w2 := entry_delete_all w1
  let w3 := entry_insert_start w2 value
  entry_set_state w3 wstate

/-! ## Commands and bindings (`connect_commands` / `connect_bindings`,
builderobject.py lines 305-364) -/

/-- A command property's stored JSON payload after `json.loads` (JSON parsing
is an external stdlib collaborator; payloads are modelled post-parse). -/
structure CmdPayload where
  value : String
  cbtype : String
  args : Option String
deriving DecidableEq

/-- The callback bag: either a plain name-keyed dict or an arbitrary object
queried by attribute name (the `isinstance(cmd_bag, dict)` dispatch in the
source). -/
inductive CBag (κ : Type) where
  | dict (entries : List (String × κ))
  | obj (attrs : List (String × κ))

/-- Name resolution against the bag: key lookup for a dict,
`hasattr`/`getattr` for an object. -/
def bagLookup {κ : Type} : CBag κ → String → Option κ
  | .dict entries, name => entries.lookup name
  | .obj attrs, name => attrs.lookup name

/-- First loop of `connect_commands`: for each declared command property
present in the metadata bag, keep its payload unless the callback name is
blank after stripping (in which case only a warning is logged). -/
def gather_commands (command_properties : List String)
    (props : List (String × CmdPayload)) : List (String × CmdPayload) :=
  command_properties.filterMap (fun p =>
    match props.lookup p with
    | some cmd => if pyStrip cmd.value = "" then none else some (p, cmd)
    | none => none)

/-- Second loop of `connect_commands`: resolve each kept command name against
the bag; a resolved name is connected (property name, callback name, callback
from the bag), an unresolved name is appended to the not-connected list. -/
def connect_go {κ : Type} (bag : CBag κ) :
    List (String × CmdPayload) → List (String × String × κ) × List String
  | [] => ([], [])
  | (p, cmd) :: rest =>
    let r := connect_go bag rest
    match bagLookup bag cmd.value with
    | some k => ((p, cmd.value, k) :: r.1, r.2)
    | none => (r.1, cmd.value :: r.2)

/-- `BuilderObject.connect_commands(cmd_bag)`: the performed connections plus
the return value — `None` when every name resolved, otherwise the non-empty
not-connected list. -/
def connect_commands {κ : Type} (command_properties : List String)
    (props : List (String × CmdPayload)) (bag : CBag κ) :
    List (String × String × κ) × Option (List String) :=
  let r := connect_go bag (gather_commands command_properties props)
  (r.1, if r.2.isEmpty then none else some r.2)

/-- One entry of `wmeta.bindings`. -/
structure Binding where
  sequence : String
  handler : String
  add : Bool
deriving DecidableEq

/-- The loop of `connect_bindings`: a resolved handler yields a
`widget.bind(sequence, callback, add)` call, an unresolved one is appended to
the not-connected list. -/
def bind_go {κ : Type} (bag : CBag κ) :
    List Binding → List (String × κ × Bool) × List String
  | [] => ([], [])
  | b :: rest =>
    let r := bind_go bag rest
    match bagLookup bag b.handler with
    | some k => ((b.sequence, k, b.add) :: r.1, r.2)
    | none => (r.1, b.handler :: r.2)

/-- `BuilderObject.connect_bindings(cb_bag)`. -/
def connect_bindings {κ : Type} (bindings : List Binding) (bag : CBag κ) :
    List (String × κ × Bool) × Option (List String) :=
  let r := bind_go bag bindings
  (r.1, if r.2.isEmpty then none else some r.2)

/-! ## Layout (`BuilderObject.layout`, builderobject.py lines 229-275) -/

/-- One entry of `wmeta.gridrc_properties`: `(type_, num, pname, value)`. -/
structure GridRC where
  type_ : String
  num : String
  pname : String
  value : String
deriving DecidableEq

/-- The layout-relevant slice of the widget metadata. -/
structure LayoutMeta where
  manager : String
  layout_properties : List (String × String)
  container_manager : Option String
  container_properties : List (String × String)
  gridrc_properties : List GridRC
deriving DecidableEq

/-- Geometry-manager calls issued by `layout` on the toolkit widget. -/
inductive LayoutCall where
  | grid (props : List (String × String))
  | pack (props : List (String × String))
  | place (props : List (String × String))
  | grid_anchor (anchor : String)
  | grid_propagate_off
  | pack_propagate_off
  | rowconfigure (num pname value : String)
  | columnconfigure (num pname value : String)
deriving DecidableEq

/-- `BuilderObject._gridrc_config`: per-row / per-column sizing calls. -/
def gridrc_calls (grc : List GridRC) : List LayoutCall :=
  grc.map (fun g =>
    if g.type_ = "row" then .rowconfigure g.num g.pname g.value
    else .columnconfigure g.num g.pname g.value)

/-- The geometry-manager placement step of `layout`: one of grid/pack/place,
anything else raises "Invalid layout manager". -/
def placement_result (layout_required : Bool) (m : LayoutMeta) :
    Except String (List LayoutCall) :=
  if layout_required then
    if m.manager = "grid" then .ok [.grid m.layout_properties]
    else if m.manager = "pack" then .ok [.pack m.layout_properties]
    else if m.manager = "place" then .ok [.place m.layout_properties]
    else .error ("Invalid layout manager: " ++ m.manager)
  else .ok []

/-- Container-level geometry policy calls for a known container manager
(a manager that is neither "grid" nor "pack" silently does nothing). -/
def container_calls (cm : String) (propagate : Bool) (anchor : Option String)
    (grc : List GridRC) : List LayoutCall :=
  if cm = "grid" then
    (match anchor with
      | some a => if a = "" then [] else [.grid_anchor a]
      | none => [])
    ++ (if propagate then [] else [.grid_propagate_off])
    ++ gridrc_calls grc
  else if cm = "pack" then
    (if propagate then [] else [.pack_propagate_off])
  else []

/-- `BuilderObject.layout(target)`: apply the node's geometry-manager
placement, then (for a layout-governing container) the container-level
policy.  A missing container manager raises; an invalid propagate value
raises inside `tk.getboolean`. -/
def layout (layout_required container_layout : Bool) (m : LayoutMeta) :
    Except String (List LayoutCall) :=
  match placement_result layout_required m with
  | .error e => .error e
  | .ok placement =>
    if container_layout then
      match pygetboolean (lookupD m.container_properties "propagate" "true") with
      | .error e => .error e
      | .ok propagate =>
        match m.container_manager with
        | some cm =>
          .ok (placement ++
            container_calls cm propagate (m.container_properties.lookup "anchor")
              m.gridrc_properties)
        | none => .error "Container Manager is none :("
    else .ok placement

/-! ## Treeview column accumulation (`TTKTreeviewBO` /
`TTKTreeviewColumnBO`, ttkstdwidgets.py lines 352-454 and 551-650) -/

/-- Column configuration properties assembled by
`TTKTreeviewColumnBO._get_column_properties` (all four keys are always
present, with defaults for omitted ones). -/
structure CProps where
  anchor : String
  stretch : String
  width : String
  minwidth : String
deriving DecidableEq

/-- Heading configuration properties assembled by
`TTKTreeviewColumnBO._get_heading_properties`; the image value, when present
and non-empty, goes through `builder.get_image` (external), recorded here as
the raw markup value. -/
structure HProps where
  anchor : String
  text : String
  image : Option String
deriving DecidableEq

/-- A column-describing child node: its identifier and metadata property bag. -/
structure TVChild where
  identifier : String
  properties : List (String × String)
deriving DecidableEq

/-- The column/heading accumulation state of a `TTKTreeviewBO`
(`_columns`, `_dcolumns`, `_headings`; the Python `None`-until-first-use
OrderedDicts are modelled as lists starting empty, which is observationally
equivalent for truthiness tests and insertion). -/
structure TVState where
  columns : List (String × CProps)
  dcolumns : List String
  headings : List (String × HProps)
deriving DecidableEq

def TVState.empty : TVState := ⟨[], [], []⟩

/-- `TTKTreeviewBO.set_column(col_id, attrs, visible)`. -/
def set_column (st : TVState) (col_id : String) (attrs : CProps) (visible : Bool) :
    TVState :=
  { st with
    columns := odSet st.columns col_id attrs,
    dcolumns :=
      if visible ∧ col_id ≠ "#0" then st.dcolumns ++ [col_id] else st.dcolumns }

/-- `TTKTreeviewBO.set_heading(col_id, attrs)`. -/
def set_heading (st : TVState) (col_id : String) (attrs : HProps) : TVState :=
  { st with headings := odSet st.headings col_id attrs }

/-- The `tree_column` flag of a child (string "true"/"false", lowercased). -/
def tree_column (c : TVChild) : Bool :=
  pyLower (lookupD c.properties "tree_column" "false") = "true"

/-- The column id a child configures: "#0" for the tree column, else the
child's identifier. -/
def columnId (c : TVChild) : String :=
  if tree_column c then "#0" else c.identifier

/-- The `visible` flag of a child (string "true"/"false", lowercased). -/
def child_visible (c : TVChild) : Bool :=
  pyLower (lookupD c.properties "visible" "true") = "true"

/-- `TTKTreeviewColumnBO._get_heading_properties`: heading anchor defaults to
tk.W ("w"), heading text defaults to the child's identifier, image only when
present and non-empty. -/
def hpropsOf (c : TVChild) : HProps :=
  { anchor := lookupD c.properties "heading_anchor" "w",
    text := (c.properties.lookup "text").getD c.identifier,
    image :=
      match c.properties.lookup "image" with
      | some v => if v = "" then none else some v
      | none => none }

/-- `TTKTreeviewColumnBO._get_column_properties`: column anchor defaults to
"", stretch to "1", width to "200", minwidth to "20". -/
def cpropsOf (c : TVChild) : CProps :=
  { anchor := lookupD c.properties "column_anchor" "",
    stretch := lookupD c.properties "stretch" "1",
    width := lookupD c.properties "width" "200",
    minwidth := lookupD c.properties "minwidth" "20" }

/-- `TTKTreeviewColumnBO._setup_column` (called once per child during
`realize`): register the heading, then the column, under the child's column
id. -/
def setup_column (st : TVState) (c : TVChild) : TVState :=
  set_column (set_heading st (columnId c) (hpropsOf c)) (columnId c)
    (cpropsOf c) (child_visible c)

/-- Realizing N column-describing children accumulates their column and
heading metadata into the parent treeview builder. -/
def realize_children (cs : List TVChild) : TVState :=
  cs.foldl setup_column TVState.empty

/-- Configuration calls issued by `TTKTreeviewBO.configure` on the toolkit
widget: generic property sets from `BuilderObject.configure`, the one bulk
columns/displaycolumns configure, per-column calls, per-heading calls. -/
inductive TVCall where
  | setProp (pname value : String)
  | bulkColumns (columns displaycolumns : List String)
  | column (id : String) (p : CProps)
  | heading (id : String) (p : HProps)
deriving DecidableEq

/-- `TTKTreeviewBO.__configure_columns`: bulk configure (columns minus "#0",
display columns), then one `widget.column` call per accumulated column in
insertion order, then one `widget.heading` call per accumulated heading in
insertion order. -/
def configure_columns (st : TVState) : List TVCall :=
  (if st.columns.isEmpty then []
   else
     TVCall.bulkColumns ((st.columns.map Prod.fst).erase "#0") st.dcolumns ::
       st.columns.map (fun e => TVCall.column e.1 e.2))
  ++ st.headings.map (fun e => TVCall.heading e.1 e.2)

/-- `TTKTreeviewBO.configure`: the inherited property configuration followed
by `__configure_columns`. -/
def treeview_configure (ro cmdp : List String) (wprops : List (String × String))
    (st : TVState) : List TVCall :=
  (configure_targets ro cmdp wprops).map (fun pv => TVCall.setProp pv.1 pv.2)
    ++ configure_columns st

/-- The per-column configuration calls among a call sequence. -/
def columnCalls (calls : List TVCall) : List (String × CProps) :=
  calls.filterMap (fun c =>
    match c with
    | .column i p => some (i, p)
    | _ => none)

/-- The per-heading configuration calls among a call sequence. -/
def headingCalls (calls : List TVCall) : List (String × HProps) :=
  calls.filterMap (fun c =>
    match c with
    | .heading i p => some (i, p)
    | _ => none)

/-! ## Code-generation value formatting
(`isfloat`, `_code_process_property_value`, `_code_process_layout_property`,
builderobject.py lines 37-42, 528-548 and 661-669) -/

/-- Count a leading run of decimal digits; returns the count and the rest. -/
def takeDigits : List Char → Nat × List Char
  | [] => (0, [])
  | c :: cs =>
    if c.isDigit then
      let p := takeDigits cs
      (p.1 + 1, p.2)
    else (0, c :: cs)

/-- Optional exponent part of a Python float literal, which must end the
string: empty, or `e`/`E`, an optional sign, and at least one digit. -/
def parseExp : List Char → Bool
  | [] => true
  | c :: cs =>
    if c = 'e' ∨ c = 'E' then
      let cs2 :=
        match cs with
        | s :: rest => if s = '+' ∨ s = '-' then rest else s :: rest
        | [] => []
      let p := takeDigits cs2
      decide (p.1 > 0) && p.2.isEmpty
    else false

/-- Decimal part of a Python float literal (underscores already removed):
digits with an optional fraction (at least one digit overall) and an optional
exponent. -/
def parseDecimal (cs : List Char) : Bool :=
  let p1 := takeDigits cs
  match p1.2 with
  | '.' :: rest =>
    let p2 := takeDigits rest
    decide (p1.1 + p2.1 > 0) && parseExp p2.2
  | rest => decide (p1.1 > 0) && parseExp rest

/-- CPython underscore rule for numeric strings: every underscore must sit
directly between two digits (`prev` is the previous character). -/
def underscoresOkAux : List Char → Char → Bool
  | [], _ => true
  | c :: cs, prev =>
    if c = '_' then
      (prev.isDigit &&
        (match cs with
          | d :: _ => d.isDigit
          | [] => false)) && underscoresOkAux cs c
    else underscoresOkAux cs c

def underscoresOk (cs : List Char) : Bool := underscoresOkAux cs ' '

/-- Model of the source helper `isfloat` (builderobject.py lines 37-42):
whether Python `float(num)` succeeds.  Implements the CPython float grammar
over ASCII: optional surrounding whitespace, optional sign, `inf`,
`infinity` or `nan` (case-insensitive), or a decimal literal with optional
fraction, optional exponent and underscores between digits. -/
def isfloat (num : String) : Bool :=
  let cs0 := (pyStrip num).data
  let cs :=
    match cs0 with
    | c :: rest => if c = '+' ∨ c = '-' then rest else c :: rest
    | [] => []
  let ls := String.mk (cs.map lowerChar)
  if ls = "inf" ∨ ls = "infinity" ∨ ls = "nan" then true
  else underscoresOk cs && parseDecimal (cs.filter (fun c => c != '_'))

/-- Model of Python `str.isnumeric` (ASCII fragment): non-empty and all
characters decimal digits. -/
def isnumeric (s : String) : Bool := !s.data.isEmpty && s.data.all Char.isDigit

/-- A single-quote character (written via its code point). -/
def sq : String := String.singleton (Char.ofNat 39)

/-- The quoted-string literal the code generator emits for non-numeric
values. -/
def squote (v : String) : String := sq ++ v ++ sq

/-- Python `str(bool)`. -/
def pyBoolStr (b : Bool) : String := if b then "True" else "False"

/-- `TRANSLATABLE_PROPERTIES` (builderobject.py line 116). -/
def TRANSLATABLE_PROPERTIES : List String := ["label", "text", "title"]

/-- `BuilderObject.code_escape_str`: Python `repr(value)` (external builtin),
modelled as single-quoting with backslash-escaping of backslashes and
quotes. -/
def code_escape_str (value : String) : String :=
  sq ++ String.mk (value.data.foldr (fun c acc =>
    if c = Char.ofNat 39 ∨ c = '\\' then '\\' :: c :: acc else c :: acc) []) ++ sq

/-- External builder collaborators used by the code-generation mirror
(`builder.code_create_variable`, `builder.code_create_image`,
`builder.code_translate_str`, and `_code_define_callback` which wraps
`builder.code_create_callback`). -/
structure CodegenBuilder where
  code_create_variable : String → Option String → String
  code_create_image : String → String
  code_translate_str : String → String
  code_define_callback : String → String → String

/-- `BuilderObject._code_set_tkvariable_property`. -/
def code_set_tkvariable_property (b : CodegenBuilder) (wprops : List (String × String))
    (pname value : String) : String :=
  let varvalue :=
    if (wprops.lookup "text").isSome ∧ pname = "textvariable" then
      some (b.code_translate_str ((wprops.lookup "text").getD ""))
    else if (wprops.lookup "value").isSome ∧ pname = "variable" then
      some (code_escape_str ((wprops.lookup "value").getD ""))
    else none
  b.code_create_variable value varvalue

/-- `BuilderObject._code_process_property_value`: variable, command, image,
takefocus and translatable properties get special processing; any other value
is emitted unquoted when numeric (`isnumeric` or `isfloat`), single-quoted
otherwise. -/
def code_process_property_value (b : CodegenBuilder) (command_properties : List String)
    (wprops : List (String × String)) (pname value : String) : Except String String :=
  if pname ∈ tkvar_properties then
    .ok (code_set_tkvariable_property b wprops pname value)
  else if pname ∈ command_properties then
    .ok (b.code_define_callback pname value)
  else if pname ∈ tkimage_properties then
    .ok (b.code_create_image value)
  else if pname = "takefocus" then
    match pygetboolean value with
    | .ok bv => .ok (pyBoolStr bv)
    | .error e => .error e
  else if pname ∈ TRANSLATABLE_PROPERTIES then
    .ok (b.code_translate_str value)
  else
    .ok (if isnumeric value || isfloat value then value else squote value)

/-- `BuilderObject._code_process_layout_property`: the same numeric-vs-quoted
heuristic, with no special cases. -/
def code_process_layout_property (manager pname pvalue : String) : String :=
  if isnumeric pvalue || isfloat pvalue then pvalue else squote pvalue

/-- A concrete collaborator bundle for witnesses. -/
def trivialCodegenBuilder : CodegenBuilder :=
  { code_create_variable := fun v _ => v,
    code_create_image := fun v => v,
    code_translate_str := fun v => v,
    code_define_callback := fun p _ => p }

/-! ## Theorems -/

theorem lookup_eq_none_of_not_mem_keys {α : Type} (l : List (String × α)) (k : String)
    (h : k ∉ l.map Prod.fst) : l.lookup k = none := by
  induction l with
  | nil => rfl
  | cons e t ih =>
    simp only [List.map_cons, List.mem_cons] at h
    push_neg at h
    have hk : (k == e.1) = false := beq_eq_false_iff_ne.mpr h.1
    simp [List.lookup, hk, ih h.2]

theorem odSet_fresh {α : Type} (l : List (String × α)) (k : String) (v : α)
    (h : k ∉ l.map Prod.fst) : odSet l k v = l ++ [(k, v)] := by
  unfold odSet
  rw [lookup_eq_none_of_not_mem_keys l k h]
  rfl

theorem lookup_map_replace {α : Type} (l : List (String × α)) (k k' : String) (v : α)
    (h : k' ≠ k) :
    (l.map (fun e => if e.1 = k then (k, v) else e)).lookup k' = l.lookup k' := by
  induction l with
  | nil => rfl
  | cons e t ih =>
    simp only [List.map_cons]
    by_cases he : e.1 = k
    · rw [if_pos he]
      have hk1 : (k' == k) = false := beq_eq_false_iff_ne.mpr h
      simp [List.lookup, hk1, ih]
      have hk2 : (k' == e.1) = false := beq_eq_false_iff_ne.mpr (fun hh => h (hh.trans he))
      simp [hk2]
    · rw [if_neg he]
      by_cases hk : k' = e.1
      · have : (k' == e.1) = true := beq_iff_eq.mpr hk
        simp [List.lookup, this]
      · have : (k' == e.1) = false := beq_eq_false_iff_ne.mpr hk
        simp [List.lookup, this, ih]

theorem lookup_append_single {α : Type} (l : List (String × α)) (k k' : String) (v : α)
    (h : k' ≠ k) : (l ++ [(k, v)]).lookup k' = l.lookup k' := by
  induction l with
  | nil =>
    have : (k' == k) = false := beq_eq_false_iff_ne.mpr h
    simp [List.lookup, this]
  | cons e t ih =>
    by_cases hk : k' = e.1
    · have : (k' == e.1) = true := beq_iff_eq.mpr hk
      simp [List.lookup, this]
    · have : (k' == e.1) = false := beq_eq_false_iff_ne.mpr hk
      simp [List.lookup, this, ih]

theorem lookup_odSet_ne {α : Type} (l : List (String × α)) (k k' : String) (v : α)
    (h : k' ≠ k) : (odSet l k v).lookup k' = l.lookup k' := by
  unfold odSet
  by_cases hs : (l.lookup k).isSome
  · simp only [hs, if_pos]
    exact lookup_map_replace l k k' v h
  · simp only [hs, Bool.false_eq_true, if_neg, ite_false]
    exact lookup_append_single l k k' v h

theorem dictUpdate_lookup_none (d1 d2 : PDict) (k : String) (h : d2.lookup k = none) :
    (dictUpdate d1 d2).lookup k = d1.lookup k := by
  induction d2 generalizing d1 with
  | nil => rfl
  | cons e t ih =>
    by_cases hk : k = e.1
    · exfalso
      have : (k == e.1) = true := beq_iff_eq.mpr hk
      simp [List.lookup, this] at h
    · have hb : (k == e.1) = false := beq_eq_false_iff_ne.mpr hk
      simp only [List.lookup, hb] at h
      have step : dictUpdate d1 (e :: t) = dictUpdate (odSet d1 e.1 e.2) t := by
        simp [dictUpdate]
      rw [step, ih _ h, lookup_odSet_ne d1 e.1 k e.2 hk]

theorem register_twice_eq (p : String) (d1 d2 : PDict) :
    register_twice p d1 d2 = [(p, dictUpdate d1 d2)] := by
  unfold register_twice register_property
  simp [List.lookup]

/-- C1 (counterexample). The claim that `register_property(p, d1)` followed by
`register_property(p, d2)` deep-merges — i.e. that every field of `d1` at any
nesting depth not overridden by `d2` survives — is false: Python `dict.update`
is a shallow merge, so the nested field `a.x` of `d1` is discarded when `d2`
also has top-level key `a`. -/
theorem register_property_deep_merge_false :
    ¬ (∀ (p : String) (d1 d2 : PDict) (path : List String) (w : PValue),
        getPath path (PValue.d d1) = some w →
        getPath path (PValue.d d2) = none →
        ∃ stored, (register_twice p d1 d2).lookup p = some stored ∧
          getPath path (PValue.d stored) = some w) := by
  intro h
  obtain ⟨stored, hs, hget⟩ :=
    h "p" cexD1 cexD2 ["a", "x"] (PValue.s "1") rfl rfl
  rw [register_twice_eq] at hs
  have hs' : some (dictUpdate cexD1 cexD2) = some stored := by
    rw [← hs]
    simp [List.lookup]
  cases hs'
  have hnone : getPath ["a", "x"] (PValue.d (dictUpdate cexD1 cexD2)) = none := rfl
  rw [hnone] at hget
  cases hget

/-- C1 (amended). Re-registering a property name performs a shallow (top-level)
merge: the stored descriptor is `dictUpdate d1 d2`, and every top-level field of
`d1` whose key `d2` does not itself contain is still present with its original
value. Nested fields under a top-level key that `d2` overrides are discarded. -/
theorem register_property_shallow_merge (p : String) (d1 d2 : PDict) (k : String)
    (h : d2.lookup k = none) :
    (register_twice p d1 d2).lookup p = some (dictUpdate d1 d2) ∧
    (dictUpdate d1 d2).lookup k = d1.lookup k := by
  constructor
  · rw [register_twice_eq]
    simp [List.lookup]
  · exact dictUpdate_lookup_none d1 d2 k h

/-- Witness for the amended C1 at the concrete descriptions of the
counterexample scenario and the absent key `b`. -/
theorem register_property_shallow_merge_witness :
    cexD2.lookup "b" = none ∧
    ((register_twice "p" cexD1 cexD2).lookup "p" = some (dictUpdate cexD1 cexD2) ∧
      (dictUpdate cexD1 cexD2).lookup "b" = cexD1.lookup "b") :=
  ⟨rfl, register_property_shallow_merge "p" cexD1 cexD2 "b" rfl⟩

theorem get_init_args_keys (wprops : List (String × String)) (ro : List String)
    (args : List (String × PropValue)) (h : get_init_args wprops ro = .ok args) :
    args.map Prod.fst = ro.filter (fun p => (wprops.lookup p).isSome) := by
  induction ro generalizing args with
  | nil =>
    cases h
    rfl
  | cons rop rest ih =>
    simp only [get_init_args] at h
    split at h
    next v hl =>
      split at h
      next pv hp =>
        split at h
        next args0 hr =>
          cases h
          simp [List.filter_cons, hl, ih args0 hr]
        next e hr => exact Except.noConfusion h
      next e hp => exact Except.noConfusion h
    next hl =>
      simp [List.filter_cons, hl, ih args h]

/-- C5: read-only properties present in the metadata bag are passed exactly
once, as construction arguments built by `_get_init_args` during `realize`
(their keys are precisely the declared read-only names present in the bag,
each occurring once), while `configure` applies exactly the bag properties
that are neither read-only nor command-valued and hence never reapplies a
read-only property. -/
theorem ro_properties_construction_only (ro cmdp : List String)
    (wprops : List (String × String)) (args : List (String × PropValue))
    (hnd : ro.Nodup) (hok : get_init_args wprops ro = .ok args) :
    args.map Prod.fst = ro.filter (fun p => (wprops.lookup p).isSome) ∧
    (args.map Prod.fst).Nodup ∧
    (∀ p, p ∈ args.map Prod.fst ↔ (p ∈ ro ∧ (wprops.lookup p).isSome)) ∧
    (∀ pv, pv ∈ configure_targets ro cmdp wprops ↔
      (pv ∈ wprops ∧ pv.1 ∉ ro ∧ pv.1 ∉ cmdp)) ∧
    (∀ p ∈ ro, ∀ pv ∈ configure_targets ro cmdp wprops, pv.1 ≠ p) := by
  have hkeys := get_init_args_keys wprops ro args hok
  have htargets : ∀ pv, pv ∈ configure_targets ro cmdp wprops ↔
      (pv ∈ wprops ∧ pv.1 ∉ ro ∧ pv.1 ∉ cmdp) := by
    intro pv
    simp [configure_targets, List.mem_filter]
  refine ⟨hkeys, ?_, ?_, htargets, ?_⟩
  · rw [hkeys]
    exact hnd.filter _
  · intro p
    rw [hkeys, List.mem_filter]
  · intro p hp pv hpv
    rcases (htargets pv).mp hpv with ⟨_, hnro, _⟩
    intro hEq
    exact hnro (hEq ▸ hp)

/-- Witness for C5 at a concrete builder-object description: one read-only
property ("class_"), one command property ("command"), all three present in
the metadata bag. -/
theorem ro_properties_construction_only_witness :
    (["class_"] : List String).Nodup ∧
    get_init_args [("class_", "Frame"), ("text", "hi"), ("command", "x")] ["class_"]
      = .ok [("class_", PropValue.str "Frame")] ∧
    ([("class_", PropValue.str "Frame")].map Prod.fst
        = ["class_"].filter
            (fun p => ((([("class_", "Frame"), ("text", "hi"), ("command", "x")]).lookup p).isSome)) ∧
      ([("class_", PropValue.str "Frame")].map Prod.fst).Nodup ∧
      (∀ p, p ∈ [("class_", PropValue.str "Frame")].map Prod.fst ↔
        (p ∈ ["class_"] ∧ ((([("class_", "Frame"), ("text", "hi"), ("command", "x")]).lookup p).isSome))) ∧
      (∀ pv, pv ∈ configure_targets ["class_"] ["command"]
          [("class_", "Frame"), ("text", "hi"), ("command", "x")] ↔
        (pv ∈ [("class_", "Frame"), ("text", "hi"), ("command", "x")] ∧
          pv.1 ∉ ["class_"] ∧ pv.1 ∉ ["command"])) ∧
      (∀ p ∈ ["class_"],
        ∀ pv ∈ configure_targets ["class_"] ["command"]
            [("class_", "Frame"), ("text", "hi"), ("command", "x")], pv.1 ≠ p)) :=
  ⟨by decide, rfl,
    ro_properties_construction_only ["class_"] ["command"]
      [("class_", "Frame"), ("text", "hi"), ("command", "x")]
      [("class_", PropValue.str "Frame")] (by decide) rfl⟩

/-- C6: setting the "text" property of an entry-like widget in any state
(including disabled or readonly) leaves exactly the new value as the widget
content and restores the prior state afterward. -/
theorem entry_text_roundtrip (w : EntryWidget) (v : String) :
    (entry_set_text w v).content = v ∧ (entry_set_text w v).state = w.state := by
  by_cases h : w.state = "normal" <;>
    simp [entry_set_text, entry_set_state, entry_delete_all, entry_insert_start, h]

/-- C7 (counterexample). The claim that `_set_property` never raises — unknown
properties logged, TclError caught — is false: a TclError raised by
`tk.getboolean` while processing a non-empty invalid "takefocus" value occurs
before the try block around the widget assignment and propagates. -/
theorem set_property_can_raise :
    ¬ (∀ (props : List String) (wprops : List (String × String))
         (widget : String → PropValue → Except String Unit) (pname value : String),
        ∃ log, set_property props wprops widget pname value = .ok log) := by
  intro h
  obtain ⟨log, hlog⟩ :=
    h ["takefocus"] [("takefocus", "bogus")] acceptingWidget "takefocus" "bogus"
  have hc : set_property ["takefocus"] [("takefocus", "bogus")] acceptingWidget
      "takefocus" "bogus" = .error ("expected boolean value but got bogus") := rfl
  rw [hc] at hlog
  cases hlog

theorem configure_go_total (props : List String) (wprops : List (String × String))
    (widget : String → PropValue → Except String Unit) (ts : List (String × String))
    (h : ∀ t ∈ ts, t.1 ∉ props ∨ ∃ pv, process_property_value wprops t.1 t.2 = .ok pv) :
    ∃ logs, configure_go props wprops widget ts = .ok logs ∧ logs.length = ts.length := by
  induction ts with
  | nil => exact ⟨[], rfl, rfl⟩
  | cons t ts ih =>
    obtain ⟨logs, hgo, hlen⟩ := ih (fun x hx => h x (List.mem_cons_of_mem _ hx))
    have hsp : ∃ log, set_property props wprops widget t.1 t.2 = .ok log := by
      by_cases hmem : t.1 ∈ props
      · rcases h t (List.mem_cons_self t ts) with hn | ⟨pv, hpv⟩
        · exact absurd hmem hn
        · cases hw : widget t.1 pv with
          | ok u => exact ⟨.setOk t.1 pv, by simp [set_property, hmem, hpv, hw]⟩
          | error e => exact ⟨.setFailed t.1 e, by simp [set_property, hmem, hpv, hw]⟩
      · exact ⟨.unknownProp t.1, by simp [set_property, hmem]⟩
    obtain ⟨log, hl⟩ := hsp
    refine ⟨log :: logs, ?_, by simp [hlen]⟩
    simp [configure_go, hl, hgo]

/-- C7 (amended). An unknown property name is logged, not raised; a TclError
raised by the widget assignment itself is caught and logged; and whenever
value processing succeeds for every target property, `configure` runs through
the whole bag.  However a TclError raised while pre-processing a value (the
"takefocus" boolean conversion) propagates out of `_set_property` and
`configure`. -/
theorem set_property_logs_and_configure_continues (props : List String)
    (wprops : List (String × String)) (widget : String → PropValue → Except String Unit) :
    (∀ pname value, pname ∉ props →
        set_property props wprops widget pname value = .ok (.unknownProp pname)) ∧
    (∀ pname value pv e, pname ∈ props →
        process_property_value wprops pname value = .ok pv →
        widget pname pv = .error e →
        set_property props wprops widget pname value = .ok (.setFailed pname e)) ∧
    (∀ ro cmdp,
        (∀ t ∈ configure_targets ro cmdp wprops,
            t.1 ∉ props ∨ ∃ pv, process_property_value wprops t.1 t.2 = .ok pv) →
        ∃ logs, configure props ro cmdp wprops widget = .ok logs ∧
          logs.length = (configure_targets ro cmdp wprops).length) := by
  refine ⟨?_, ?_, ?_⟩
  · intro pname value hn
    simp [set_property, hn]
  · intro pname value pv e hmem hpv hw
    simp [set_property, hmem, hpv, hw]
  · intro ro cmdp h
    exact configure_go_total props wprops widget (configure_targets ro cmdp wprops) h

/-- Witness for the amended C7: an unknown property is logged, a widget-level
TclError is caught as a log entry, and configure processes a whole concrete
bag. -/
theorem set_property_logs_and_configure_continues_witness :
    set_property ["text"] [] acceptingWidget "zzz" "v" = .ok (.unknownProp "zzz") ∧
    set_property ["text"] [] rejectingWidget "text" "v" = .ok (.setFailed "text" "bad value") ∧
    (∃ logs, configure ["text"] [] [] [("text", "hi"), ("zzz", "1")] acceptingWidget = .ok logs ∧
      logs.length = (configure_targets [] [] [("text", "hi"), ("zzz", "1")]).length) := by
  refine ⟨?_, ?_, ?_⟩
  · exact (set_property_logs_and_configure_continues ["text"] [] acceptingWidget).1
      "zzz" "v" (by decide)
  · exact (set_property_logs_and_configure_continues ["text"] [] rejectingWidget).2.1
      "text" "v" (PropValue.str "v") "bad value" (by decide) rfl rfl
  · refine (set_property_logs_and_configure_continues ["text"]
      [("text", "hi"), ("zzz", "1")] acceptingWidget).2.2 [] [] ?_
    intro t ht
    simp only [configure_targets, List.mem_filter] at ht
    rcases List.mem_pair.mp ht.1 with rfl | rfl
    · exact Or.inr ⟨PropValue.str "hi", rfl⟩
    · exact Or.inr ⟨PropValue.str "1", rfl⟩

theorem connect_go_mem_connected {κ : Type} (bag : CBag κ)
    (l : List (String × CmdPayload)) (p : String) (cmd : CmdPayload) (k : κ)
    (hm : (p, cmd) ∈ l) (hk : bagLookup bag cmd.value = some k) :
    (p, cmd.value, k) ∈ (connect_go bag l).1 := by
  induction l with
  | nil => cases hm
  | cons e rest ih =>
    obtain ⟨q, c⟩ := e
    rcases List.mem_cons.mp hm with heq | hm2
    · cases heq
      simp [connect_go, hk]
    · simp only [connect_go]
      cases hb : bagLookup bag c.value with
      | some k2 =>
        simp only [hb]
        exact List.mem_cons_of_mem _ (ih hm2)
      | none =>
        simp only [hb]
        exact ih hm2

theorem connect_go_mem_nc {κ : Type} (bag : CBag κ)
    (l : List (String × CmdPayload)) (p : String) (cmd : CmdPayload)
    (hm : (p, cmd) ∈ l) (hk : bagLookup bag cmd.value = none) :
    cmd.value ∈ (connect_go bag l).2 := by
  induction l with
  | nil => cases hm
  | cons e rest ih =>
    obtain ⟨q, c⟩ := e
    rcases List.mem_cons.mp hm with heq | hm2
    · cases heq
      simp [connect_go, hk]
    · simp only [connect_go]
      cases hb : bagLookup bag c.value with
      | some k2 =>
        simp only [hb]
        exact ih hm2
      | none =>
        simp only [hb]
        exact List.mem_cons_of_mem _ (ih hm2)

theorem connect_go_connected_inv {κ : Type} (bag : CBag κ)
    (l : List (String × CmdPayload)) :
    ∀ c ∈ (connect_go bag l).1, ∃ cmd k, (c.1, cmd) ∈ l ∧ c.2 = (cmd.value, k) := by
  induction l with
  | nil => intro c hc; cases hc
  | cons e rest ih =>
    obtain ⟨q, cm⟩ := e
    intro c hc
    simp only [connect_go] at hc
    cases hb : bagLookup bag cm.value with
    | some k2 =>
      simp only [hb] at hc
      rcases List.mem_cons.mp hc with heq | hc2
      · cases heq
        exact ⟨cm, k2, List.mem_cons_self _ _, rfl⟩
      · obtain ⟨cmd, k, hmem, hval⟩ := ih c hc2
        exact ⟨cmd, k, List.mem_cons_of_mem _ hmem, hval⟩
    | none =>
      simp only [hb] at hc
      obtain ⟨cmd, k, hmem, hval⟩ := ih c hc
      exact ⟨cmd, k, List.mem_cons_of_mem _ hmem, hval⟩

theorem connect_go_nc_inv {κ : Type} (bag : CBag κ)
    (l : List (String × CmdPayload)) :
    ∀ v ∈ (connect_go bag l).2, ∃ p cmd, (p, cmd) ∈ l ∧ v = cmd.value := by
  induction l with
  | nil => intro v hv; cases hv
  | cons e rest ih =>
    obtain ⟨q, cm⟩ := e
    intro v hv
    simp only [connect_go] at hv
    cases hb : bagLookup bag cm.value with
    | some k2 =>
      simp only [hb] at hv
      obtain ⟨p, cmd, hmem, hval⟩ := ih v hv
      exact ⟨p, cmd, List.mem_cons_of_mem _ hmem, hval⟩
    | none =>
      simp only [hb] at hv
      rcases List.mem_cons.mp hv with heq | hv2
      · exact ⟨q, cm, List.mem_cons_self _ _, heq⟩
      · obtain ⟨p, cmd, hmem, hval⟩ := ih v hv2
        exact ⟨p, cmd, List.mem_cons_of_mem _ hmem, hval⟩

theorem connect_go_nc_nil {κ : Type} (bag : CBag κ) (l : List (String × CmdPayload))
    (h : ∀ p cmd, (p, cmd) ∈ l → (bagLookup bag cmd.value).isSome) :
    (connect_go bag l).2 = [] := by
  induction l with
  | nil => rfl
  | cons e rest ih =>
    obtain ⟨q, cm⟩ := e
    obtain ⟨k, hk⟩ :=
      Option.isSome_iff_exists.mp (h q cm (List.mem_cons_self _ _))
    simp [connect_go, hk,
      ih (fun p cmd hm => h p cmd (List.mem_cons_of_mem _ hm))]

theorem bind_go_mem_connected {κ : Type} (bag : CBag κ) (l : List Binding)
    (b : Binding) (k : κ) (hm : b ∈ l) (hk : bagLookup bag b.handler = some k) :
    (b.sequence, k, b.add) ∈ (bind_go bag l).1 := by
  induction l with
  | nil => cases hm
  | cons e rest ih =>
    rcases List.mem_cons.mp hm with heq | hm2
    · cases heq
      simp [bind_go, hk]
    · simp only [bind_go]
      cases hb : bagLookup bag e.handler with
      | some k2 =>
        simp only [hb]
        exact List.mem_cons_of_mem _ (ih hm2)
      | none =>
        simp only [hb]
        exact ih hm2

theorem bind_go_mem_nc {κ : Type} (bag : CBag κ) (l : List Binding)
    (b : Binding) (hm : b ∈ l) (hk : bagLookup bag b.handler = none) :
    b.handler ∈ (bind_go bag l).2 := by
  induction l with
  | nil => cases hm
  | cons e rest ih =>
    rcases List.mem_cons.mp hm with heq | hm2
    · cases heq
      simp [bind_go, hk]
    · simp only [bind_go]
      cases hb : bagLookup bag e.handler with
      | some k2 =>
        simp only [hb]
        exact ih hm2
      | none =>
        simp only [hb]
        exact List.mem_cons_of_mem _ (ih hm2)

theorem bind_go_nc_nil {κ : Type} (bag : CBag κ) (l : List Binding)
    (h : ∀ b ∈ l, (bagLookup bag b.handler).isSome) :
    (bind_go bag l).2 = [] := by
  induction l with
  | nil => rfl
  | cons e rest ih =>
    obtain ⟨k, hk⟩ := Option.isSome_iff_exists.mp (h e (List.mem_cons_self _ _))
    simp [bind_go, hk, ih (fun b hm => h b (List.mem_cons_of_mem _ hm))]

theorem gather_commands_mem (cps : List String) (props : List (String × CmdPayload))
    (p : String) (cmd : CmdPayload) (h : (p, cmd) ∈ gather_commands cps props) :
    props.lookup p = some cmd ∧ pyStrip cmd.value ≠ "" := by
  unfold gather_commands at h
  obtain ⟨q, hq, he⟩ := List.mem_filterMap.mp h
  split at he
  next c hl =>
    split at he
    next hb => exact Option.noConfusion he
    next hb =>
      injection he with h2
      injection h2 with h3 h4
      subst h3
      subst h4
      exact ⟨hl, hb⟩
  next hl => exact Option.noConfusion he

theorem optList_getD (l : List String) :
    ((if l.isEmpty then none else some l : Option (List String))).getD [] = l := by
  cases l <;> simp

theorem optList_some_eq (r l : List String)
    (h : (if r.isEmpty then none else some r : Option (List String)) = some l) :
    l = r := by
  cases r with
  | nil => simp at h
  | cons a t =>
    simp at h
    exact h.symm

/-- C3: `connect_commands` and `connect_bindings` never raise on unresolved
names — every declared command/binding name absent from the bag (dict or
attribute object alike) ends up in the returned not-connected list, and every
declared name present in the bag is connected to its callback. -/
theorem connect_collects_and_connects {κ : Type} (cps : List String)
    (props : List (String × CmdPayload)) (bindings : List Binding) (bag : CBag κ) :
    (∀ p cmd, (p, cmd) ∈ gather_commands cps props →
      (bagLookup bag cmd.value = none →
        cmd.value ∈ ((connect_commands cps props bag).2.getD [])) ∧
      (∀ k, bagLookup bag cmd.value = some k →
        (p, cmd.value, k) ∈ (connect_commands cps props bag).1)) ∧
    (∀ b ∈ bindings,
      (bagLookup bag b.handler = none →
        b.handler ∈ ((connect_bindings bindings bag).2.getD [])) ∧
      (∀ k, bagLookup bag b.handler = some k →
        (b.sequence, k, b.add) ∈ (connect_bindings bindings bag).1)) := by
  constructor
  · intro p cmd hm
    constructor
    · intro hk
      have h2 : (connect_commands cps props bag).2.getD []
          = (connect_go bag (gather_commands cps props)).2 := by
        simp only [connect_commands]
        exact optList_getD _
      rw [h2]
      exact connect_go_mem_nc bag _ p cmd hm hk
    · intro k hk
      exact connect_go_mem_connected bag _ p cmd k hm hk
  · intro b hm
    constructor
    · intro hk
      have h2 : (connect_bindings bindings bag).2.getD []
          = (bind_go bag bindings).2 := by
        simp only [connect_bindings]
        exact optList_getD _
      rw [h2]
      exact bind_go_mem_nc bag _ b hm hk
    · intro k hk
      exact bind_go_mem_connected bag _ b k hm hk

/-- Witness for C3 at a concrete builder object: two declared commands (one
resolved, one not) and two bindings (one resolved, one not) against a
dict-shaped bag. -/
theorem connect_collects_and_connects_witness :
    ("go" ∈ ((connect_commands ["command", "validatecommand"]
        [("command", CmdPayload.mk "go" "simple" none),
         ("validatecommand", CmdPayload.mk "check" "simple" none)]
        (CBag.dict [("check", (7 : Nat))])).2.getD [])) ∧
    (("validatecommand", "check", (7 : Nat)) ∈ (connect_commands
        ["command", "validatecommand"]
        [("command", CmdPayload.mk "go" "simple" none),
         ("validatecommand", CmdPayload.mk "check" "simple" none)]
        (CBag.dict [("check", (7 : Nat))])).1) ∧
    ("onb" ∈ ((connect_bindings
        [Binding.mk "<Button-1>" "onb" true, Binding.mk "<Key>" "check" false]
        (CBag.dict [("check", (7 : Nat))])).2.getD [])) ∧
    (("<Key>", (7 : Nat), false) ∈ (connect_bindings
        [Binding.mk "<Button-1>" "onb" true, Binding.mk "<Key>" "check" false]
        (CBag.dict [("check", (7 : Nat))])).1) := by
  refine ⟨?_, ?_, ?_, ?_⟩
  · exact ((connect_collects_and_connects ["command", "validatecommand"]
      [("command", CmdPayload.mk "go" "simple" none),
       ("validatecommand", CmdPayload.mk "check" "simple" none)]
      [] (CBag.dict [("check", (7 : Nat))])).1
      "command" (CmdPayload.mk "go" "simple" none) (by decide)).1 rfl
  · exact ((connect_collects_and_connects ["command", "validatecommand"]
      [("command", CmdPayload.mk "go" "simple" none),
       ("validatecommand", CmdPayload.mk "check" "simple" none)]
      [] (CBag.dict [("check", (7 : Nat))])).1
      "validatecommand" (CmdPayload.mk "check" "simple" none) (by decide)).2 7 rfl
  · exact ((connect_collects_and_connects ([] : List String) []
      [Binding.mk "<Button-1>" "onb" true, Binding.mk "<Key>" "check" false]
      (CBag.dict [("check", (7 : Nat))])).2
      (Binding.mk "<Button-1>" "onb" true) (by decide)).1 rfl
  · exact ((connect_collects_and_connects ([] : List String) []
      [Binding.mk "<Button-1>" "onb" true, Binding.mk "<Key>" "check" false]
      (CBag.dict [("check", (7 : Nat))])).2
      (Binding.mk "<Key>" "check" false) (by decide)).2 7 rfl

/-- C9: when every declared (kept) command name resolves in the bag,
`connect_commands` returns `None` rather than an empty list, and a non-`None`
return is always a non-empty list; likewise for `connect_bindings`. -/
theorem connect_returns_none_or_nonempty {κ : Type} (cps : List String)
    (props : List (String × CmdPayload)) (bindings : List Binding) (bag : CBag κ) :
    ((∀ p cmd, (p, cmd) ∈ gather_commands cps props →
        (bagLookup bag cmd.value).isSome) →
      (connect_commands cps props bag).2 = none) ∧
    (∀ l, (connect_commands cps props bag).2 = some l → l ≠ []) ∧
    ((∀ b ∈ bindings, (bagLookup bag b.handler).isSome) →
      (connect_bindings bindings bag).2 = none) ∧
    (∀ l, (connect_bindings bindings bag).2 = some l → l ≠ []) := by
  refine ⟨?_, ?_, ?_, ?_⟩
  · intro h
    simp only [connect_commands]
    rw [connect_go_nc_nil bag _ h]
    rfl
  · intro l hl
    have h2 := optList_some_eq _ l hl
    subst h2
    intro hnil
    rw [hnil] at hl
    simp [connect_commands] at hl
  · intro h
    simp only [connect_bindings]
    rw [bind_go_nc_nil bag _ h]
    rfl
  · intro l hl
    have h2 := optList_some_eq _ l hl
    subst h2
    intro hnil
    rw [hnil] at hl
    simp [connect_bindings] at hl

/-- Witness for C9: a fully-resolved command set and binding set give `None`;
an unresolved one gives a non-empty list. -/
theorem connect_returns_none_or_nonempty_witness :
    ((connect_commands ["command"]
        [("command", CmdPayload.mk "check" "simple" none)]
        (CBag.dict [("check", (7 : Nat))])).2 = none) ∧
    ((connect_bindings [Binding.mk "<Key>" "check" false]
        (CBag.dict [("check", (7 : Nat))])).2 = none) ∧
    (["go"] ≠ ([] : List String)) := by
  refine ⟨?_, ?_, ?_⟩
  · refine (connect_returns_none_or_nonempty ["command"]
      [("command", CmdPayload.mk "check" "simple" none)]
      [] (CBag.dict [("check", (7 : Nat))])).1 ?_
    intro p cmd hm
    have hm2 : (p, cmd) ∈ [("command", CmdPayload.mk "check" "simple" none)] := hm
    have h3 := List.mem_singleton.mp hm2
    injection h3 with h4 h5
    subst h4
    subst h5
    rfl
  · refine (connect_returns_none_or_nonempty ([] : List String) []
      [Binding.mk "<Key>" "check" false] (CBag.dict [("check", (7 : Nat))])).2.2.1 ?_
    intro b hm
    have h3 := List.mem_singleton.mp hm
    subst h3
    rfl
  · exact (connect_returns_none_or_nonempty ["command"]
      [("command", CmdPayload.mk "go" "simple" none)]
      [] (CBag.dict ([] : List (String × Nat)))).2.1 ["go"] rfl

/-- C10: a declared command property whose stored payload has a blank
(empty or whitespace-only) callback name is skipped entirely by
`connect_commands`: it is never connected and its name never appears in the
returned not-connected list, regardless of the bag. -/
theorem blank_command_value_skipped {κ : Type} (cps : List String)
    (props : List (String × CmdPayload)) (bag : CBag κ) (pname : String)
    (cmd : CmdPayload) (hp : props.lookup pname = some cmd)
    (hblank : pyStrip cmd.value = "") :
    (∀ conn ∈ (connect_commands cps props bag).1, conn.1 ≠ pname) ∧
    (∀ l, (connect_commands cps props bag).2 = some l → cmd.value ∉ l) := by
  constructor
  · intro conn hc hEq
    have hc2 : conn ∈ (connect_go bag (gather_commands cps props)).1 := hc
    obtain ⟨cmd2, k, hmem, hval⟩ := connect_go_connected_inv bag _ conn hc2
    obtain ⟨hl, hnb⟩ := gather_commands_mem cps props conn.1 cmd2 hmem
    rw [hEq, hp] at hl
    injection hl with h2
    rw [h2] at hblank
    exact hnb hblank
  · intro l hsome hvmem
    have h2 := optList_some_eq _ l hsome
    subst h2
    obtain ⟨p2, cmd2, hmem, hval⟩ := connect_go_nc_inv bag _ cmd.value hvmem
    obtain ⟨hl2, hnb2⟩ := gather_commands_mem cps props p2 cmd2 hmem
    rw [hval] at hblank
    exact hnb2 hblank

/-- Witness for C10: a whitespace-only callback name is neither connected nor
reported, even though the bag could resolve it. -/
theorem blank_command_value_skipped_witness :
    ((List.lookup "command" [("command", CmdPayload.mk "   " "simple" none)])
        = some (CmdPayload.mk "   " "simple" none)) ∧
    pyStrip "   " = "" ∧
    ((∀ conn ∈ (connect_commands ["command"]
        [("command", CmdPayload.mk "   " "simple" none)]
        (CBag.dict [("   ", (3 : Nat))])).1, conn.1 ≠ "command") ∧
      (∀ l, (connect_commands ["command"]
        [("command", CmdPayload.mk "   " "simple" none)]
        (CBag.dict [("   ", (3 : Nat))])).2 = some l → "   " ∉ l)) :=
  ⟨rfl, rfl,
    blank_command_value_skipped ["command"]
      [("command", CmdPayload.mk "   " "simple" none)]
      (CBag.dict [("   ", (3 : Nat))]) "command"
      (CmdPayload.mk "   " "simple" none) rfl rfl⟩

/-- C4: for a node requiring layout, `layout()` with a geometry-manager
selector other than grid/pack/place raises immediately, and for a
layout-governing container node a missing container-manager value likewise
raises. -/
theorem layout_invalid_manager_raises (layout_required container_layout : Bool)
    (m : LayoutMeta) :
    (layout_required = true → m.manager ≠ "grid" → m.manager ≠ "pack" →
      m.manager ≠ "place" →
      layout layout_required container_layout m =
        .error ("Invalid layout manager: " ++ m.manager)) ∧
    (container_layout = true → m.container_manager = none →
      ∃ e, layout layout_required container_layout m = .error e) := by
  constructor
  · intro hlr h1 h2 h3
    simp [layout, placement_result, hlr, h1, h2, h3]
  · intro hcl hcm
    cases hpr : placement_result layout_required m with
    | error e => exact ⟨e, by simp [layout, hpr]⟩
    | ok placement =>
      cases hb : pygetboolean (lookupD m.container_properties "propagate" "true") with
      | error e => exact ⟨e, by simp [layout, hpr, hcl, hb]⟩
      | ok propagate =>
        exact ⟨"Container Manager is none :(", by simp [layout, hpr, hcl, hb, hcm]⟩

/-- Witness for C4: an unknown manager name "flow" raises, and a container
node with no container manager raises. -/
theorem layout_invalid_manager_raises_witness :
    (layout true false (LayoutMeta.mk "flow" [] (some "grid") [] []) =
      .error ("Invalid layout manager: " ++ "flow")) ∧
    (∃ e, layout false true (LayoutMeta.mk "pack" [] none [] []) = .error e) :=
  ⟨(layout_invalid_manager_raises true false
      (LayoutMeta.mk "flow" [] (some "grid") [] [])).1 rfl
      (by decide) (by decide) (by decide),
   (layout_invalid_manager_raises false true
      (LayoutMeta.mk "pack" [] none [] [])).2 rfl rfl⟩

theorem columnCalls_append (l1 l2 : List TVCall) :
    columnCalls (l1 ++ l2) = columnCalls l1 ++ columnCalls l2 := by
  simp [columnCalls, List.filterMap_append]

theorem headingCalls_append (l1 l2 : List TVCall) :
    headingCalls (l1 ++ l2) = headingCalls l1 ++ headingCalls l2 := by
  simp [headingCalls, List.filterMap_append]

theorem columnCalls_setProps (l : List (String × String)) :
    columnCalls (l.map (fun pv => TVCall.setProp pv.1 pv.2)) = [] := by
  induction l with
  | nil => rfl
  | cons a t ih =>
    simp only [List.map_cons, columnCalls, List.filterMap_cons] at ih ⊢
    exact ih

theorem headingCalls_setProps (l : List (String × String)) :
    headingCalls (l.map (fun pv => TVCall.setProp pv.1 pv.2)) = [] := by
  induction l with
  | nil => rfl
  | cons a t ih =>
    simp only [List.map_cons, headingCalls, List.filterMap_cons] at ih ⊢
    exact ih

theorem columnCalls_columns (l : List (String × CProps)) :
    columnCalls (l.map (fun e => TVCall.column e.1 e.2)) = l := by
  induction l with
  | nil => rfl
  | cons a t ih =>
    simp only [List.map_cons, columnCalls, List.filterMap_cons] at ih ⊢
    simp [ih]

theorem headingCalls_columns (l : List (String × CProps)) :
    headingCalls (l.map (fun e => TVCall.column e.1 e.2)) = [] := by
  induction l with
  | nil => rfl
  | cons a t ih =>
    simp only [List.map_cons, headingCalls, List.filterMap_cons] at ih ⊢
    exact ih

theorem columnCalls_headings (l : List (String × HProps)) :
    columnCalls (l.map (fun e => TVCall.heading e.1 e.2)) = [] := by
  induction l with
  | nil => rfl
  | cons a t ih =>
    simp only [List.map_cons, columnCalls, List.filterMap_cons] at ih ⊢
    exact ih

theorem headingCalls_headings (l : List (String × HProps)) :
    headingCalls (l.map (fun e => TVCall.heading e.1 e.2)) = l := by
  induction l with
  | nil => rfl
  | cons a t ih =>
    simp only [List.map_cons, headingCalls, List.filterMap_cons] at ih ⊢
    simp [ih]

theorem columnCalls_bulk (a b : List String) (l : List TVCall) :
    columnCalls (TVCall.bulkColumns a b :: l) = columnCalls l := by
  simp [columnCalls, List.filterMap_cons]

theorem headingCalls_bulk (a b : List String) (l : List TVCall) :
    headingCalls (TVCall.bulkColumns a b :: l) = headingCalls l := by
  simp [headingCalls, List.filterMap_cons]

theorem columnCalls_configure_columns (st : TVState) :
    columnCalls (configure_columns st) = st.columns := by
  unfold configure_columns
  rw [columnCalls_append, columnCalls_headings]
  cases hc : st.columns with
  | nil => simp [columnCalls]
  | cons a t =>
    simp only [List.isEmpty_cons, Bool.false_eq_true, if_false]
    rw [columnCalls_bulk, columnCalls_columns]
    simp

theorem headingCalls_configure_columns (st : TVState) :
    headingCalls (configure_columns st) = st.headings := by
  unfold configure_columns
  rw [headingCalls_append, headingCalls_headings]
  cases hc : st.columns with
  | nil => simp [headingCalls]
  | cons a t =>
    simp only [List.isEmpty_cons, Bool.false_eq_true, if_false]
    rw [headingCalls_bulk, headingCalls_columns]
    simp

theorem foldl_setup_column (cs : List TVChild) (st : TVState)
    (h1 : ((st.columns.map Prod.fst) ++ cs.map columnId).Nodup)
    (h2 : ((st.headings.map Prod.fst) ++ cs.map columnId).Nodup) :
    (cs.foldl setup_column st).columns
        = st.columns ++ cs.map (fun c => (columnId c, cpropsOf c)) ∧
    (cs.foldl setup_column st).headings
        = st.headings ++ cs.map (fun c => (columnId c, hpropsOf c)) := by
  induction cs generalizing st with
  | nil => simp
  | cons c rest ih =>
    simp only [List.map_cons] at h1 h2
    have hfresh1 : columnId c ∉ st.columns.map Prod.fst := fun hmem =>
      (List.nodup_append.mp h1).2.2 hmem (List.mem_cons_self _ _)
    have hfresh2 : columnId c ∉ st.headings.map Prod.fst := fun hmem =>
      (List.nodup_append.mp h2).2.2 hmem (List.mem_cons_self _ _)
    have hcols : (setup_column st c).columns
        = st.columns ++ [(columnId c, cpropsOf c)] := by
      simp only [setup_column, set_column, set_heading]
      exact odSet_fresh _ _ _ hfresh1
    have hheads : (setup_column st c).headings
        = st.headings ++ [(columnId c, hpropsOf c)] := by
      simp only [setup_column, set_column, set_heading]
      exact odSet_fresh _ _ _ hfresh2
    have hna : ((setup_column st c).columns.map Prod.fst ++ rest.map columnId).Nodup := by
      rw [hcols]
      simp only [List.map_append, List.map_cons, List.map_nil, List.append_assoc,
        List.singleton_append]
      exact h1
    have hnb : ((setup_column st c).headings.map Prod.fst ++ rest.map columnId).Nodup := by
      rw [hheads]
      simp only [List.map_append, List.map_cons, List.map_nil, List.append_assoc,
        List.singleton_append]
      exact h2
    obtain ⟨ha, hb⟩ := ih (setup_column st c) hna hnb
    constructor
    · rw [List.foldl_cons, ha, hcols, List.append_assoc]
      simp
    · rw [List.foldl_cons, hb, hheads, List.append_assoc]
      simp

/-- C2: realizing N column-describing children (distinct column ids) and then
configuring performs exactly N per-column configuration calls and exactly N
per-heading configuration calls, in the order the children were declared,
with implicit defaults filled in for omitted properties (width "200",
stretch "1", minwidth "20", empty column anchor, heading anchor "w",
heading text defaulting to the child's identifier). -/
theorem treeview_n_columns_n_headings (ro cmdp : List String)
    (wprops : List (String × String)) (cs : List TVChild)
    (hnd : (cs.map columnId).Nodup) :
    columnCalls (treeview_configure ro cmdp wprops (realize_children cs))
        = cs.map (fun c => (columnId c, cpropsOf c)) ∧
    headingCalls (treeview_configure ro cmdp wprops (realize_children cs))
        = cs.map (fun c => (columnId c, hpropsOf c)) ∧
    (∀ c ∈ cs,
      (c.properties.lookup "width" = none → (cpropsOf c).width = "200") ∧
      (c.properties.lookup "stretch" = none → (cpropsOf c).stretch = "1") ∧
      (c.properties.lookup "minwidth" = none → (cpropsOf c).minwidth = "20") ∧
      (c.properties.lookup "column_anchor" = none → (cpropsOf c).anchor = "") ∧
      (c.properties.lookup "heading_anchor" = none → (hpropsOf c).anchor = "w") ∧
      (c.properties.lookup "text" = none → (hpropsOf c).text = c.identifier)) := by
  obtain ⟨hc, hh⟩ := foldl_setup_column cs TVState.empty
    (by simpa [TVState.empty] using hnd) (by simpa [TVState.empty] using hnd)
  refine ⟨?_, ?_, ?_⟩
  · unfold treeview_configure
    rw [columnCalls_append, columnCalls_setProps, columnCalls_configure_columns]
    rw [show realize_children cs = cs.foldl setup_column TVState.empty from rfl, hc]
    simp [TVState.empty]
  · unfold treeview_configure
    rw [headingCalls_append, headingCalls_setProps, headingCalls_configure_columns]
    rw [show realize_children cs = cs.foldl setup_column TVState.empty from rfl, hh]
    simp [TVState.empty]
  · intro c hcm
    refine ⟨?_, ?_, ?_, ?_, ?_, ?_⟩ <;> intro h <;>
      simp [cpropsOf, hpropsOf, lookupD, h]

/-- Witness for C2 at two concrete column children, one with all properties
omitted and one overriding the width. -/
theorem treeview_n_columns_n_headings_witness :
    (([TVChild.mk "col1" [], TVChild.mk "col2" [("width", "80")]].map columnId).Nodup) ∧
    (columnCalls (treeview_configure [] [] []
        (realize_children [TVChild.mk "col1" [], TVChild.mk "col2" [("width", "80")]]))
        = [TVChild.mk "col1" [], TVChild.mk "col2" [("width", "80")]].map
            (fun c => (columnId c, cpropsOf c)) ∧
      headingCalls (treeview_configure [] [] []
        (realize_children [TVChild.mk "col1" [], TVChild.mk "col2" [("width", "80")]]))
        = [TVChild.mk "col1" [], TVChild.mk "col2" [("width", "80")]].map
            (fun c => (columnId c, hpropsOf c)) ∧
      (∀ c ∈ [TVChild.mk "col1" [], TVChild.mk "col2" [("width", "80")]],
        (c.properties.lookup "width" = none → (cpropsOf c).width = "200") ∧
        (c.properties.lookup "stretch" = none → (cpropsOf c).stretch = "1") ∧
        (c.properties.lookup "minwidth" = none → (cpropsOf c).minwidth = "20") ∧
        (c.properties.lookup "column_anchor" = none → (cpropsOf c).anchor = "") ∧
        (c.properties.lookup "heading_anchor" = none → (hpropsOf c).anchor = "w") ∧
        (c.properties.lookup "text" = none → (hpropsOf c).text = c.identifier))) :=
  ⟨by decide,
    treeview_n_columns_n_headings [] [] []
      [TVChild.mk "col1" [], TVChild.mk "col2" [("width", "80")]] (by decide)⟩

theorem squote_length (v : String) : (squote v).length = v.length + 2 := by
  have h1 : sq.length = 1 := rfl
  unfold squote
  rw [String.length_append, String.length_append, h1]
  omega

theorem squote_ne (v : String) : squote v ≠ v := by
  intro h
  have h2 := congrArg String.length h
  rw [squote_length] at h2
  omega

/-- C8: for every property value not subject to special processing (not a
variable, command, image, takefocus or translatable property) and for every
layout property value, the emitted literal is the value itself exactly when
the value parses as a number (`isnumeric` or `isfloat`), and the
single-quoted string otherwise. -/
theorem value_literal_heuristic (b : CodegenBuilder) (cmdp : List String)
    (wprops : List (String × String)) (pname value : String)
    (h1 : pname ∉ tkvar_properties) (h2 : pname ∉ cmdp)
    (h3 : pname ∉ tkimage_properties) (h4 : pname ≠ "takefocus")
    (h5 : pname ∉ TRANSLATABLE_PROPERTIES) :
    code_process_property_value b cmdp wprops pname value =
      .ok (if isnumeric value || isfloat value then value else squote value) ∧
    (∀ manager pn2, code_process_layout_property manager pn2 value =
      (if isnumeric value || isfloat value then value else squote value)) ∧
    (code_process_property_value b cmdp wprops pname value = .ok value ↔
      (isnumeric value || isfloat value) = true) ∧
    (∀ manager pn2, code_process_layout_property manager pn2 value = value ↔
      (isnumeric value || isfloat value) = true) := by
  have hmain : code_process_property_value b cmdp wprops pname value =
      .ok (if isnumeric value || isfloat value then value else squote value) := by
    simp [code_process_property_value, h1, h2, h3, h4, h5]
  refine ⟨hmain, fun manager pn2 => rfl, ?_, ?_⟩
  · constructor
    · intro h
      by_cases hcond : (isnumeric value || isfloat value) = true
      · exact hcond
      · rw [hmain, if_neg hcond] at h
        injection h with h6
        exact absurd h6 (squote_ne value)
    · intro hcond
      rw [hmain, if_pos hcond]
  · intro manager pn2
    constructor
    · intro h
      by_cases hcond : (isnumeric value || isfloat value) = true
      · exact hcond
      · simp only [code_process_layout_property, if_neg hcond] at h
        exact absurd h (squote_ne value)
    · intro hcond
      simp [code_process_layout_property, hcond]

/-- Witness for C8 at the non-special property "width" and a non-numeric
value. -/
theorem value_literal_heuristic_witness :
    ("width" ∉ tkvar_properties) ∧
    (code_process_property_value trivialCodegenBuilder [] [] "width" "50px" =
      .ok (if isnumeric "50px" || isfloat "50px" then "50px" else squote "50px") ∧
    (∀ manager pn2, code_process_layout_property manager pn2 "50px" =
      (if isnumeric "50px" || isfloat "50px" then "50px" else squote "50px")) ∧
    (code_process_property_value trivialCodegenBuilder [] [] "width" "50px" = .ok "50px" ↔
      (isnumeric "50px" || isfloat "50px") = true) ∧
    (∀ manager pn2, code_process_layout_property manager pn2 "50px" = "50px" ↔
      (isnumeric "50px" || isfloat "50px") = true)) :=
  ⟨by decide,
    value_literal_heuristic trivialCodegenBuilder [] [] "width" "50px"
      (by decide) (by decide) (by decide) (by decide) (by decide)⟩

end Pygubu
